import Mathlib

/-!
Shallow embedding of the Obsidian bibliography plugin (src/main.ts) and
proofs about its specification claims.

Strings are modelled as Lean `String`s; the JavaScript string operations
and the concrete regular expressions of the plugin are translated into
executable Lean functions on `List Char`.  JavaScript objects whose key
insertion order matters (the `Reference` records) are modelled as ordered
association lists.
-/

/-- Model of the JavaScript whitespace class `\s` restricted to the ASCII
whitespace characters (space, tab, line feed, carriage return, vertical
tab, form feed).  The Unicode space code points of `\s` are not used by
any input considered here. -/
def jsSpace (c : Char) : Bool :=
  c = ' ' || c = '\t' || c = '\n' || c = '\r' || c = '\x0b' || c = '\x0c'

/-- Model of the JavaScript regular-expression metacharacter `.` (without
the `s` flag): any character except the line terminators LF, CR, U+2028
and U+2029. -/
def jsDotChar (c : Char) : Bool :=
  !(c = '\n' || c = '\r' || c.toNat = 0x2028 || c.toNat = 0x2029)

/-- Model of `String.prototype.trim`: remove leading and trailing
whitespace. -/
def jsTrim (s : String) : String :=
  String.mk (((s.data.dropWhile jsSpace).reverse.dropWhile jsSpace).reverse)

/-- Decimal value of a list of digit characters (used to model
`parseInt` on the digit strings that occur in the plugin). -/
def digitsVal (cs : List Char) : Nat :=
  cs.foldl (fun a c => 10 * a + (c.toNat - 48)) 0

/-- Model of `parseInt(s)` for the arguments that occur in the plugin:
the argument is a string of decimal digits (guaranteed by the arXiv
identifier pattern), so `parseInt` returns the value of the leading
digit run. -/
def parseIntDigits (s : String) : Nat :=
  digitsVal (s.data.takeWhile Char.isDigit)

/-- Author record (interface `Author` of src/main.ts). -/
structure Author where
  first : String
  last : String
deriving DecidableEq, Repr

/-- A JavaScript value stored in a non-author field of a `Reference`
record: a string, a number (all numbers in the plugin are integers), or
`undefined`. -/
inductive FieldValue
  | str (s : String)
  | num (n : Int)
  | jsUndefined
deriving DecidableEq, Repr

/-- String interpolation of a field value, as performed by JavaScript
template literals: numbers print in decimal, `undefined` prints as
"undefined". -/
def fvToString : FieldValue → String
  | .str s => s
  | .num n => toString n
  | .jsUndefined => "undefined"

/-- Model of the `Reference` interface of src/main.ts.  The `authors`
property is kept separately (its value is an array, and the arXiv
normaliser can place `null` entries in it, modelled by `Option`).  All
other own properties are kept as an association list in key insertion
order, which is the order `for ... in` enumerates them. -/
structure Reference where
  authors : List (Option Author)
  fields : List (String × FieldValue)
deriving DecidableEq, Repr

/-- Property read `reference[k]` for a non-author key: the first binding
of `k`, or `undefined` when the key is absent. -/
def Reference.getField (r : Reference) (k : String) : FieldValue :=
  match r.fields.find? (fun kv => kv.1 = k) with
  | some kv => kv.2
  | none => .jsUndefined

/-- Model of `LINKED_FIELDS` of src/main.ts. -/
def LINKED_FIELDS : List String := ["journal", "publisher"]

/-- Model of `DOI_TYPE_LOOKUP` of src/main.ts: partial map from Crossref types to
bibtex types; an absent key reads as `undefined`, modelled by `none`. -/
def DOI_TYPE_LOOKUP (k : String) : Option String :=
  if k = "article-journal" then some "article"
  else if k = "monograph" then some "book"
  else if k = "report" then some "techreport"
  else none

/-- Model of `Array.prototype.join(sep)`. -/
def joinSep (sep : String) : List String → String
  | [] => ""
  | [x] => x
  | x :: y :: rest => x ++ sep ++ joinSep sep (y :: rest)

/-- The map body `reference.authors.map(author => ...)` of
`formatReference` dereferences `author.last` and `author.first`, so it
throws a `TypeError` on a `null` entry; `collectAuthors` returns `none`
in that case and the list of authors otherwise. -/
def collectAuthors : List (Option Author) → Option (List Author)
  | [] => some []
  | none :: _ => none
  | some a :: rest => (collectAuthors rest).map (fun l => a :: l)

/-- The string an author contributes to the author line:
`[[${author.last}, ${author.first}]]`. -/
def authorText (a : Author) : String :=
  "[[" ++ a.last ++ ", " ++ a.first ++ "]]"

/-- One iteration of the `for key in reference` loop of
`formatReference` (for a key that is neither `authors` nor `type`):
the value is linked when `link` holds and the key is a linked field,
and the line `${key} = { ${value} }` is produced. -/
def fieldLine (link : Bool) (kv : String × FieldValue) : String :=
  let v0 := fvToString kv.2
  let v := if link && LINKED_FIELDS.contains kv.1 then "[[" ++ v0 ++ "]]" else v0
  kv.1 ++ " = \x7b " ++ v ++ " \x7d"

/-- Definition `formatReference` of src/main.ts.  Returns `none` when the author
map throws (a `null` author entry); otherwise the serialized record:
the header `@${reference.type}{CITEKEY`, the author line, one line per
remaining key in insertion order, joined by `,\n  `, and the closing
`\n}`. -/
def formatReference (r : Reference) (link : Bool) : Option String :=
  match collectAuthors r.authors with
  | none => none
  | some as =>
    let lines : List String :=
      ["@" ++ fvToString (r.getField "type") ++ "\x7bCITEKEY",
       "author = \x7b " ++ joinSep " and " (as.map authorText) ++ " \x7d"]
      ++ (r.fields.filter (fun kv => !(kv.1 = "authors" || kv.1 = "type"))).map (fieldLine link)
    some (joinSep ",\n  " lines ++ "\n\x7d")

/-- Body of `text.replace(/^\^{3}\s*/, '')`: when the text starts with
three carets they are removed together with the following whitespace
run; otherwise the regular expression does not match and the text is
unchanged. -/
def stripLeadBody : List Char → List Char
  | '^' :: '^' :: '^' :: rest => rest.dropWhile jsSpace
  | cs => cs

/-- Model of `text.replace(/^\^{3}\s*/, '')` of the postprocessor. -/
def stripLeadingFence (s : String) : String :=
  String.mk (stripLeadBody s.data)

/-- Body of `text.replace(/\s*\^{3}$/, '')`, working on the reversed
character list: when the text ends with three carets they are removed
together with the preceding whitespace run; otherwise the text is
unchanged. -/
def stripTrailBody (cs : List Char) : List Char :=
  match cs.reverse with
  | '^' :: '^' :: '^' :: rest => (rest.dropWhile jsSpace).reverse
  | _ => cs

/-- Model of `text.replace(/\s*\^{3}$/, '')` of the postprocessor. -/
def stripTrailingFence (s : String) : String :=
  String.mk (stripTrailBody s.data)

/-- The text extraction the postprocessor applies to a caret fence:
strip the leading `^^^` plus following whitespace, then the trailing
whitespace plus `^^^`. -/
def extractFenceBody (t : String) : String :=
  stripTrailingFence (stripLeadingFence t)

/-- Model of `text.startsWith('^^^')`. -/
def startsCaret3 (s : String) : Bool :=
  match s.data with
  | '^' :: '^' :: '^' :: _ => true
  | _ => false

/-- Model of `text.endsWith('^^^')`. -/
def endsCaret3 (s : String) : Bool :=
  match s.data.reverse with
  | '^' :: '^' :: '^' :: _ => true
  | _ => false

theorem stringMkData (s : String) : String.mk s.data = s := rfl

theorem stringDataAppend (s t : String) : (s ++ t).data = s.data ++ t.data := rfl

/-- The serialized reference always starts with the `@` of the header
line. -/
theorem formatReference_head (r : Reference) (link : Bool) (f : String)
    (h : formatReference r link = some f) :
    ∃ t, f.data = '@' :: t := by
  unfold formatReference at h
  cases hc : collectAuthors r.authors with
  | none => rw [hc] at h; exact absurd h (by simp)
  | some as =>
    rw [hc] at h
    simp only [Option.some.injEq] at h
    subst h
    refine ⟨?_, ?_⟩
    · exact (fvToString (r.getField "type")).data ++ "\x7bCITEKEY".data ++
        (",\n  " ++ joinSep ",\n  "
          (("author = \x7b " ++ joinSep " and " (as.map authorText) ++ " \x7d") ::
            (r.fields.filter (fun kv => !(kv.1 = "authors" || kv.1 = "type"))).map (fieldLine link))).data
        ++ "\n\x7d".data
    · simp [joinSep, stringDataAppend]

/-- The serialized reference always ends with the closing brace. -/
theorem formatReference_last (r : Reference) (link : Bool) (f : String)
    (h : formatReference r link = some f) :
    ∃ u, f.data = u ++ ['\n', '\x7d'] := by
  unfold formatReference at h
  cases hc : collectAuthors r.authors with
  | none => rw [hc] at h; exact absurd h (by simp)
  | some as =>
    rw [hc] at h
    simp only [Option.some.injEq] at h
    subst h
    exact ⟨_, stringDataAppend _ "\n\x7d"⟩

/-- Core extraction computation: stripping the fence markers from
`^^^\n` ++ body ++ `\n^^^` returns the body exactly, provided the body
starts with a non-whitespace character and ends with a non-whitespace
character (here specialised to `@` and the closing brace). -/
theorem extract_wrapped (m : List Char)
    (hhead : ∃ t, m = '@' :: t) (hlast : ∃ u, m = u ++ ['\n', '\x7d']) :
    extractFenceBody ("^^^\n" ++ String.mk m ++ "\n^^^") = String.mk m := by
  obtain ⟨t, ht⟩ := hhead
  obtain ⟨u, hu⟩ := hlast
  have hdata : ("^^^\n" ++ String.mk m ++ "\n^^^").data
      = '^' :: '^' :: '^' :: '\n' :: m ++ ['\n', '^', '^', '^'] := by
    simp [stringDataAppend]
  unfold extractFenceBody stripLeadingFence
  rw [hdata]
  have hlead : stripLeadBody ('^' :: '^' :: '^' :: '\n' :: m ++ ['\n', '^', '^', '^'])
      = m ++ ['\n', '^', '^', '^'] := by
    simp only [stripLeadBody]
    rw [ht]
    simp [List.dropWhile, jsSpace]
  rw [hlead]
  unfold stripTrailingFence
  have hrev : (m ++ ['\n', '^', '^', '^']).reverse
      = '^' :: '^' :: '^' :: '\n' :: m.reverse := by
    simp
  have hmrev : m.reverse = '\x7d' :: '\n' :: u.reverse := by
    rw [hu]; simp
  have htrail : stripTrailBody (String.mk (m ++ ['\n', '^', '^', '^'])).data = m := by
    show stripTrailBody (m ++ ['\n', '^', '^', '^']) = m
    unfold stripTrailBody
    rw [hrev, hmrev]
    simp only [List.dropWhile, jsSpace]
    simp
    exact hu.symm
  rw [htrail]

/-- C1: for every reference whose serialization succeeds, wrapping
`formatReference(r, true)` as `^^^\n` + body + `\n^^^` (the exact note
content written by `onChooseSuggestion`) and applying the
postprocessor's text extraction returns exactly the serialized
reference; moreover the wrapped text passes the postprocessor's caret
fence test. -/
theorem c1_format_fence_roundtrip (r : Reference) (f : String)
    (h : formatReference r true = some f) :
    extractFenceBody ("^^^\n" ++ f ++ "\n^^^") = f ∧
      startsCaret3 ("^^^\n" ++ f ++ "\n^^^") = true ∧
      endsCaret3 ("^^^\n" ++ f ++ "\n^^^") = true := by
  have hhead := formatReference_head r true f h
  have hlast := formatReference_last r true f h
  refine ⟨?_, ?_, ?_⟩
  · have := extract_wrapped f.data hhead hlast
    rw [stringMkData] at this
    exact this
  · unfold startsCaret3
    rw [show ("^^^\n" ++ f ++ "\n^^^").data
        = '^' :: '^' :: '^' :: '\n' :: f.data ++ ['\n', '^', '^', '^'] by
      simp [stringDataAppend]]
    rfl
  · unfold endsCaret3
    rw [show ("^^^\n" ++ f ++ "\n^^^").data
        = '^' :: '^' :: '^' :: '\n' :: f.data ++ ['\n', '^', '^', '^'] by
      simp [stringDataAppend]]
    simp

/-- Witness for C1 at a concrete reference. -/
theorem c1_format_fence_roundtrip_witness :
    extractFenceBody ("^^^\n" ++
        "@article\x7bCITEKEY,\n  author = \x7b [[Doe, Jane]] \x7d,\n  title = \x7b T \x7d\n\x7d"
        ++ "\n^^^")
      = "@article\x7bCITEKEY,\n  author = \x7b [[Doe, Jane]] \x7d,\n  title = \x7b T \x7d\n\x7d" :=
  (c1_format_fence_roundtrip
    ⟨[some ⟨"Jane", "Doe"⟩], [("type", .str "article"), ("title", .str "T")]⟩
    "@article\x7bCITEKEY,\n  author = \x7b [[Doe, Jane]] \x7d,\n  title = \x7b T \x7d\n\x7d"
    (by rfl)).1

/-- Spec-side restatement of the field-line production for the C5
claim: the value is wrapped in double brackets exactly when linking is
requested and the key is `journal` or `publisher`. -/
def fieldLineSpec (link : Bool) (k : String) (v : FieldValue) : String :=
  if link = true ∧ (k = "journal" ∨ k = "publisher") then
    k ++ " = \x7b " ++ ("[[" ++ fvToString v ++ "]]") ++ " \x7d"
  else
    k ++ " = \x7b " ++ fvToString v ++ " \x7d"

/-- Spec-side restatement of `formatReference` for the C5 claim: each
author is wrapped as `[[last, first]]` independently of the `link`
argument, only keys other than `authors` and `type` produce
`key = { value }` lines, and linking wraps exactly the `journal` and
`publisher` values. -/
def formatReferenceSpec (r : Reference) (link : Bool) : Option String :=
  match collectAuthors r.authors with
  | none => none
  | some as =>
    let header := "@" ++ fvToString (r.getField "type") ++ "\x7bCITEKEY"
    let authorLine := "author = \x7b " ++
      joinSep " and " (as.map (fun a => "[[" ++ a.last ++ ", " ++ a.first ++ "]]")) ++ " \x7d"
    let fieldLines := (r.fields.filter (fun kv => kv.1 ≠ "authors" ∧ kv.1 ≠ "type")).map
      (fun kv => fieldLineSpec link kv.1 kv.2)
    some (joinSep ",\n  " (header :: authorLine :: fieldLines) ++ "\n\x7d")

/-- Every field line produced by the source agrees with the spec-side
wrapping condition. -/
theorem fieldLine_eq_spec (link : Bool) (kv : String × FieldValue) :
    fieldLine link kv = fieldLineSpec link kv.1 kv.2 := by
  unfold fieldLine fieldLineSpec LINKED_FIELDS
  cases link with
  | false => simp
  | true =>
    by_cases hk : kv.1 = "journal" ∨ kv.1 = "publisher"
    · have hc : List.contains ["journal", "publisher"] kv.1 = true := by
        rcases hk with hk | hk <;> simp [hk]
      rw [if_pos ⟨rfl, hk⟩]
      simp [hc]
      rw [if_pos hk]
    · have hc : List.contains ["journal", "publisher"] kv.1 = false := by
        obtain ⟨h1, h2⟩ := not_or.mp hk
        simp [h1, h2]
      rw [if_neg (fun hx => hk hx.2)]
      simp [hc]
      rw [if_neg hk]

/-- C5: `formatReference` agrees with the spec-side serializer: each
author is wrapped as `[[last, first]]` unconditionally, a non-author
field value is wrapped in `[[...]]` exactly when `link` is true and the
key is `journal` or `publisher`, all other values appear unwrapped, and
`authors` and `type` never produce `key = \x7b value \x7d` lines. -/
theorem c5_linked_fields (r : Reference) (link : Bool) :
    formatReference r link = formatReferenceSpec r link := by
  unfold formatReference formatReferenceSpec
  cases collectAuthors r.authors with
  | none => rfl
  | some as =>
    simp only [Option.some.injEq]
    have hfun : fieldLine link = fun kv => fieldLineSpec link kv.1 kv.2 :=
      funext (fun kv => fieldLine_eq_spec link kv)
    have hfilter : r.fields.filter (fun kv => !(kv.1 = "authors" || kv.1 = "type"))
        = r.fields.filter (fun kv => kv.1 ≠ "authors" ∧ kv.1 ≠ "type") := by
      congr 1
      funext kv
      by_cases h1 : kv.1 = "authors" <;> by_cases h2 : kv.1 = "type" <;> simp [h1, h2]
    rw [hfun, hfilter]
    rfl

/-- Model of matching `/^(?<first>.+?)\s+(?<last>[^\s]+)$/` (the
`arxivAuthorPattern` of src/main.ts) against a string.  The match
succeeds exactly when the string ends with a non-empty run of
non-whitespace characters (the `last` group), immediately preceded by at
least one whitespace character, preceded by a non-empty prefix (the
lazily matched `first` group) that contains no line terminator (`.` does
not match line terminators). -/
def parseArxivAuthor (s : String) : Option Author :=
  let cs := s.data
  let lastRev := cs.reverse.takeWhile (fun c => !jsSpace c)
  if lastRev.isEmpty then none
  else
    let rest := cs.reverse.drop lastRev.length
    let wsRun := rest.takeWhile jsSpace
    if wsRun.isEmpty then none
    else
      let firstRev := rest.drop wsRun.length
      if firstRev.isEmpty then none
      else if firstRev.all jsDotChar then
        some ⟨String.mk firstRev.reverse, String.mk lastRev.reverse⟩
      else none

/-- One `entry` element of the arXiv API response, restricted to the
data the plugin reads: the text of the first `title` element and the
text content of each `author` element. -/
structure ArxivEntry where
  title : String
  authorTexts : List String
deriving DecidableEq, Repr

/-- The arXiv branch of `getSuggestions`, per entry: each author text is
trimmed and matched against `arxivAuthorPattern` (pushing `null`,
modelled as `none`, when the match fails), and the suggestion record is
built with the keys in the order of the object literal of src/main.ts
(`type`, `authors`, `year`, `title`, `journal`, `arxiv`, `pages`). -/
def mkArxivReference (identifier : String) (e : ArxivEntry) : Reference :=
  { authors := e.authorTexts.map (fun t => parseArxivAuthor (jsTrim t)),
    fields := [("type", .str "article"),
               ("year", .num (2000 + (parseIntDigits (String.mk (identifier.data.take 2)) : Int))),
               ("title", .str e.title),
               ("journal", .str "arXiv"),
               ("arxiv", .str identifier),
               ("pages", .str identifier)] }

/-- The author map of `formatReference` succeeds exactly when no author
entry is `null`. -/
theorem collectAuthors_isSome (l : List (Option Author)) :
    (collectAuthors l).isSome = l.all Option.isSome := by
  induction l with
  | nil => rfl
  | cons a rest ih =>
    cases a with
    | none => simp [collectAuthors]
    | some x =>
      simp only [collectAuthors, List.all_cons, Option.isSome_some, Bool.true_and, ← ih]
      cases collectAuthors rest <;> rfl

/-- C9: `formatReference` succeeds exactly when every element of the
authors list is non-null, and the arXiv normaliser can violate this
precondition: the author text "Cher" does not match
`arxivAuthorPattern`, so the normaliser pushes `null` and the resulting
reference makes `formatReference` throw. -/
theorem c9_null_author_safety :
    (∀ (r : Reference) (link : Bool),
        (formatReference r link).isSome = r.authors.all Option.isSome) ∧
      (mkArxivReference "2301.12345" ⟨"Believe", ["Cher"]⟩).authors = [none] ∧
      formatReference (mkArxivReference "2301.12345" ⟨"Believe", ["Cher"]⟩) true = none := by
  refine ⟨?_, ?_, ?_⟩
  · intro r link
    unfold formatReference
    rw [← collectAuthors_isSome]
    cases collectAuthors r.authors <;> rfl
  · decide
  · decide

/-- C6: the arXiv normaliser produces the fixed record shape: for an
identifier of shape `YYMM.NNNNN`, the reference has type `article`,
journal `arXiv`, `arxiv` and `pages` equal to the identifier, the title
of the entry, and year `2000` plus the numeric value of the first two
digits of the identifier. -/
theorem c6_arxiv_normalization
    (d1 d2 d3 d4 n1 n2 n3 n4 n5 : Char) (e : ArxivEntry)
    (h1 : d1.isDigit = true) (h2 : d2.isDigit = true)
    (h3 : d3.isDigit = true) (h4 : d4.isDigit = true)
    (h5 : n1.isDigit = true) (h6 : n2.isDigit = true)
    (h7 : n3.isDigit = true) (h8 : n4.isDigit = true)
    (h9 : n5.isDigit = true) :
    (mkArxivReference (String.mk [d1, d2, d3, d4, '.', n1, n2, n3, n4, n5]) e).getField "type"
        = .str "article" ∧
      (mkArxivReference (String.mk [d1, d2, d3, d4, '.', n1, n2, n3, n4, n5]) e).getField "journal"
        = .str "arXiv" ∧
      (mkArxivReference (String.mk [d1, d2, d3, d4, '.', n1, n2, n3, n4, n5]) e).getField "arxiv"
        = .str (String.mk [d1, d2, d3, d4, '.', n1, n2, n3, n4, n5]) ∧
      (mkArxivReference (String.mk [d1, d2, d3, d4, '.', n1, n2, n3, n4, n5]) e).getField "pages"
        = .str (String.mk [d1, d2, d3, d4, '.', n1, n2, n3, n4, n5]) ∧
      (mkArxivReference (String.mk [d1, d2, d3, d4, '.', n1, n2, n3, n4, n5]) e).getField "title"
        = .str e.title ∧
      (mkArxivReference (String.mk [d1, d2, d3, d4, '.', n1, n2, n3, n4, n5]) e).getField "year"
        = .num (2000 + ((10 * (d1.toNat - 48) + (d2.toNat - 48) : Nat) : Int)) := by
  refine ⟨rfl, rfl, rfl, rfl, rfl, ?_⟩
  have hv : parseIntDigits (String.mk ((String.mk [d1, d2, d3, d4, '.', n1, n2, n3, n4, n5]).data.take 2))
      = 10 * (d1.toNat - 48) + (d2.toNat - 48) := by
    show digitsVal ([d1, d2].takeWhile Char.isDigit) = _
    rw [show [d1, d2].takeWhile Char.isDigit = [d1, d2] by
      simp [List.takeWhile, h1, h2]]
    show 10 * (10 * 0 + (d1.toNat - 48)) + (d2.toNat - 48) = _
    omega
  show FieldValue.num (2000 + (parseIntDigits (String.mk ((String.mk [d1, d2, d3, d4, '.', n1, n2, n3, n4, n5]).data.take 2)) : Int)) = _
  rw [hv]

/-- Witness for C6 at the concrete identifier `2301.12345`. -/
theorem c6_arxiv_normalization_witness :
    (mkArxivReference "2301.12345" ⟨"A title", []⟩).getField "type" = FieldValue.str "article" ∧
      (mkArxivReference "2301.12345" ⟨"A title", []⟩).getField "year" = FieldValue.num 2023 := by
  have h := c6_arxiv_normalization '2' '3' '0' '1' '1' '2' '3' '4' '5' ⟨"A title", []⟩
    (by decide) (by decide) (by decide) (by decide) (by decide)
    (by decide) (by decide) (by decide) (by decide)
  refine ⟨h.1, ?_⟩
  have hy := h.2.2.2.2.2
  rw [show (2000 + ((10 * ('2'.toNat - 48) + ('3'.toNat - 48) : Nat) : Int)) = 2023 by decide] at hy
  exact hy

/-- Model of `sectionInfo.text.split(/\r?\n/)`: split at each LF or
CRLF; a lone CR does not split. -/
def splitLinesAux : List Char → List Char → List String
  | [], acc => [String.mk acc.reverse]
  | '\r' :: '\n' :: rest, acc => String.mk acc.reverse :: splitLinesAux rest []
  | '\n' :: rest, acc => String.mk acc.reverse :: splitLinesAux rest []
  | c :: rest, acc => splitLinesAux rest (c :: acc)

/-- Model of `text.split(/\r?\n/)` of the postprocessor. -/
def splitLines (s : String) : List String :=
  splitLinesAux s.data []

/-- The section information the host hands to the postprocessor
(`MarkdownSectionInformation`): the full note text and the section's
line range. -/
structure SectionInfo where
  text : String
  lineStart : Nat
  lineEnd : Nat
deriving DecidableEq, Repr

/-- Model of `lines.slice(sectionInfo.lineStart, sectionInfo.lineEnd + 1).join('\n')`
of the postprocessor. -/
def sectionText (si : SectionInfo) : String :=
  joinSep "\n" (((splitLines si.text).drop si.lineStart).take (si.lineEnd + 1 - si.lineStart))

/-- Effect of the postprocessor on its element: untouched, or replaced
by a single pre/code pair holding the given text. -/
inductive RenderResult
  | unchanged
  | codeBlock (text : String)
deriving DecidableEq, Repr

/-- Method `BibliographyPlugin.postprocessor` of src/main.ts: return without
touching the element when no section information is available or when
the section text does not both start and end with `^^^`; otherwise
replace the element content by a pre/code pair holding the text with
the fence markers stripped. -/
def postprocessor (si : Option SectionInfo) : RenderResult :=
  match si with
  | none => .unchanged
  | some info =>
    let text := sectionText info
    if startsCaret3 text && endsCaret3 text then
      .codeBlock (extractFenceBody text)
    else
      .unchanged

/-- C4: the postprocessor changes nothing unless the section is a caret
fence: with no section information, or when the section text does not
both start and end with `^^^`, the element is untouched; when it is
such a fence, the element is replaced by a single pre/code pair holding
the fence body. -/
theorem c4_postprocessor_frame (si : Option SectionInfo) :
    (si = none → postprocessor si = .unchanged) ∧
      (∀ info, si = some info →
        ((startsCaret3 (sectionText info) && endsCaret3 (sectionText info)) = false →
            postprocessor si = .unchanged) ∧
          ((startsCaret3 (sectionText info) && endsCaret3 (sectionText info)) = true →
            postprocessor si = .codeBlock (extractFenceBody (sectionText info)))) := by
  refine ⟨fun h => by subst h; rfl, fun info h => ?_⟩
  subst h
  constructor <;> intro hc <;> simp [postprocessor, hc]

/-- Witness for C4: a fenced section is rendered as code holding the
fence body, and a non-fenced section is untouched. -/
theorem c4_postprocessor_frame_witness :
    postprocessor (some ⟨"a\n^^^\nx\n^^^", 1, 3⟩) = RenderResult.codeBlock "x" ∧
      postprocessor (some ⟨"a\nb", 0, 1⟩) = RenderResult.unchanged := by
  constructor
  · have h := ((c4_postprocessor_frame (some ⟨"a\n^^^\nx\n^^^", 1, 3⟩)).2
      ⟨"a\n^^^\nx\n^^^", 1, 3⟩ rfl).2 (by decide)
    exact h.trans (by decide)
  · exact ((c4_postprocessor_frame (some ⟨"a\nb", 0, 1⟩)).2 ⟨"a\nb", 0, 1⟩ rfl).1 (by decide)

/-- One element of the `author` array of a Crossref payload, restricted
to the properties the plugin reads. -/
structure CrossrefAuthor where
  given : String
  family : String
deriving DecidableEq, Repr

/-- A Crossref JSON payload, restricted to the properties the plugin
reads (`crtype` stands for the JSON property `type`; `issuedYear` for
`issued['date-parts'][0][0]`; `containerTitle` for `container-title`;
`issue` for `journal-issue`.issue). -/
structure CrossrefPayload where
  crtype : String
  title : String
  author : List CrossrefAuthor
  issuedYear : Int
  containerTitle : String
  volume : String
  page : String
  issue : String
  publisher : String
  institution : String
deriving DecidableEq, Repr

/-- The DOI branch of `getSuggestions`: the Crossref type is translated
through `DOI_TYPE_LOOKUP` (an unknown type reads as `undefined`), the
base record is built with the keys in assignment order (`title`,
`authors`, `type`, `year`, `doi`), and the type-specific fields are
appended according to the translated type. -/
def mkDoiReference (identifier : String) (p : CrossrefPayload) : Reference :=
  let ty := DOI_TYPE_LOOKUP p.crtype
  let tyv : FieldValue := match ty with | some t => .str t | none => .jsUndefined
  let base : List (String × FieldValue) :=
    [("title", .str p.title), ("type", tyv), ("year", .num p.issuedYear), ("doi", .str identifier)]
  let extra : List (String × FieldValue) :=
    if ty = some "article" then
      [("journal", .str p.containerTitle), ("volume", .str p.volume),
       ("pages", .str p.page), ("number", .str p.issue)]
    else if ty = some "book" then
      [("publisher", .str p.publisher)]
    else if ty = some "techreport" then
      [("institution", .str p.institution)]
    else
      []
  { authors := p.author.map (fun a => some ⟨a.given, a.family⟩),
    fields := base ++ extra }

/-- Counterexample to C7 as stated: for the Crossref type
`proceedings-article` (absent from `DOI_TYPE_LOOKUP`) the resulting
reference's `type` field is `undefined`, not a defined type string. -/
theorem c7_undefined_type_counterexample :
    (mkDoiReference "10.1234/x"
        ⟨"proceedings-article", "T", [], 2020, "C", "1", "2", "3", "P", "I"⟩).getField "type"
      = FieldValue.jsUndefined := by
  decide

/-- C7 (amended): the Crossref type is translated via the lookup
(`article-journal` to `article`, `monograph` to `book`, `report` to
`techreport`); title, authors, year and doi are always present;
type-specific fields are added according to the mapped type; and for a
Crossref type outside the lookup the `type` field is `undefined` and no
type-specific field is added. -/
theorem c7_doi_normalization (identifier : String) (p : CrossrefPayload) :
    ((mkDoiReference identifier p).getField "title" = .str p.title ∧
        (mkDoiReference identifier p).getField "year" = .num p.issuedYear ∧
        (mkDoiReference identifier p).getField "doi" = .str identifier ∧
        (mkDoiReference identifier p).authors
          = p.author.map (fun a => some ⟨a.given, a.family⟩)) ∧
      (p.crtype = "article-journal" →
        (mkDoiReference identifier p).getField "type" = .str "article" ∧
          (mkDoiReference identifier p).getField "journal" = .str p.containerTitle ∧
          (mkDoiReference identifier p).getField "volume" = .str p.volume ∧
          (mkDoiReference identifier p).getField "pages" = .str p.page ∧
          (mkDoiReference identifier p).getField "number" = .str p.issue) ∧
      (p.crtype = "monograph" →
        (mkDoiReference identifier p).getField "type" = .str "book" ∧
          (mkDoiReference identifier p).getField "publisher" = .str p.publisher) ∧
      (p.crtype = "report" →
        (mkDoiReference identifier p).getField "type" = .str "techreport" ∧
          (mkDoiReference identifier p).getField "institution" = .str p.institution) ∧
      (DOI_TYPE_LOOKUP p.crtype = none →
        (mkDoiReference identifier p).getField "type" = .jsUndefined ∧
          (mkDoiReference identifier p).getField "journal" = .jsUndefined ∧
          (mkDoiReference identifier p).getField "publisher" = .jsUndefined ∧
          (mkDoiReference identifier p).getField "institution" = .jsUndefined) := by
  refine ⟨⟨rfl, rfl, rfl, rfl⟩, ?_, ?_, ?_, ?_⟩
  · intro h
    simp [mkDoiReference, DOI_TYPE_LOOKUP, h, Reference.getField]
  · intro h
    simp [mkDoiReference, DOI_TYPE_LOOKUP, h, Reference.getField]
  · intro h
    simp [mkDoiReference, DOI_TYPE_LOOKUP, h, Reference.getField]
  · intro h
    simp [mkDoiReference, h, Reference.getField]

/-- Witness for C7 at a concrete article-journal payload. -/
theorem c7_doi_normalization_witness :
    (mkDoiReference "10.1000/j" ⟨"article-journal", "T", [], 2020, "J", "1", "2-3", "4", "P", "I"⟩).getField "type"
        = FieldValue.str "article" ∧
      (mkDoiReference "10.1000/j" ⟨"article-journal", "T", [], 2020, "J", "1", "2-3", "4", "P", "I"⟩).getField "journal"
        = FieldValue.str "J" :=
  let h := (c7_doi_normalization "10.1000/j"
    ⟨"article-journal", "T", [], 2020, "J", "1", "2-3", "4", "P", "I"⟩).2.1 rfl
  ⟨h.1, h.2.1⟩

/-- Consume an optional literal character (a `c?` item of a pattern),
comparing case-sensitively. -/
def stripOptChar (c : Char) (cs : List Char) : List Char :=
  match cs with
  | c0 :: rest => if c0 = c then rest else cs
  | [] => cs

/-- Consume an optional literal character, comparing case-insensitively
(for patterns with the `i` flag); the expected character is given in
lower case. -/
def stripOptCharCI (c : Char) (cs : List Char) : List Char :=
  match cs with
  | c0 :: rest => if c0.toLower = c then rest else cs
  | [] => cs

/-- Consume a literal, comparing case-insensitively (for patterns with
the `i` flag); the literal is given in lower case. -/
def stripLitCI : List Char → List Char → Option (List Char)
  | [], cs => some cs
  | l :: ls, c :: cs => if c.toLower = l then stripLitCI ls cs else none
  | _ :: _, [] => none

/-- Consume a literal, comparing case-sensitively. -/
def stripLitCS : List Char → List Char → Option (List Char)
  | [], cs => some cs
  | l :: ls, c :: cs => if c = l then stripLitCS ls cs else none
  | _ :: _, [] => none

/-- The JavaScript word-character class `\w`. -/
def isWordChar (c : Char) : Bool :=
  c.isAlpha || c.isDigit || c = '_'

/-- The group `(:?https?:\/\/arxiv\.org\/\w{3}\/)` of `arxivPattern`
(with the `i` flag).  Note the `(:?` of the source: the group begins
with an optional literal colon. -/
def stripArxivUrl (cs : List Char) : Option (List Char) := do
  let cs := stripOptChar ':' cs
  let cs ← stripLitCI "http".data cs
  let cs := stripOptCharCI 's' cs
  let cs ← stripLitCI "://arxiv.org/".data cs
  match cs with
  | a :: b :: c :: '/' :: rest =>
    if isWordChar a && isWordChar b && isWordChar c then some rest else none
  | _ => none

/-- The group `(:?arXiv:)` of `arxivPattern` (with the `i` flag): an
optional literal colon followed by `arXiv:`. -/
def stripArxivLabel (cs : List Char) : Option (List Char) :=
  stripLitCI "arxiv:".data (stripOptChar ':' cs)

/-- The capture group `(?<identifier>\d{4}\.\d{5})` of `arxivPattern`. -/
def readArxivId : List Char → Option (String × List Char)
  | d1 :: d2 :: d3 :: d4 :: '.' :: n1 :: n2 :: n3 :: n4 :: n5 :: rest =>
    if d1.isDigit && d2.isDigit && d3.isDigit && d4.isDigit &&
        n1.isDigit && n2.isDigit && n3.isDigit && n4.isDigit && n5.isDigit then
      some (String.mk [d1, d2, d3, d4, '.', n1, n2, n3, n4, n5], rest)
    else none
  | _ => none

/-- The sequence `.pdf` of `arxivPattern`: any non-line-terminator
character followed by `pdf` (case-insensitively). -/
def matchPdfSeq (cs : List Char) : Bool :=
  match cs with
  | [c, p, d, f] => jsDotChar c && p.toLower = 'p' && d.toLower = 'd' && f.toLower = 'f'
  | _ => false

/-- The tail `(:?.pdf)?$` of `arxivPattern`: the end of the string,
optionally preceded by the group (an optional colon and `.pdf`). -/
def matchArxivTail (cs : List Char) : Bool :=
  cs.isEmpty || matchPdfSeq cs ||
    (match cs with
     | ':' :: rest => matchPdfSeq rest
     | _ => false)

/-- Model of `query.match(this.arxivPattern)` of src/main.ts, returning the
`identifier` capture on success.  The two optional leading groups are
explored greedily (taken first, then skipped), matching the
backtracking order of the pattern. -/
def matchArxiv (s : String) : Option String :=
  let cs := s.data
  let afterUrl := match stripArxivUrl cs with
    | some r => [r, cs]
    | none => [cs]
  let cands := afterUrl.flatMap (fun c =>
    match stripArxivLabel c with
    | some r => [r, c]
    | none => [c])
  cands.findSome? (fun c =>
    match readArxivId c with
    | some (id, rest) => if matchArxivTail rest then some id else none
    | none => none)

/-- The group `(?:https?:\/\/(?:dx\.)?doi\.org\/)` of `doiPattern`
(case-sensitive). -/
def stripDoiUrl (cs : List Char) : Option (List Char) := do
  let cs ← stripLitCS "http".data cs
  let cs := stripOptChar 's' cs
  let cs ← stripLitCS "://".data cs
  let cs := match stripLitCS "dx.".data cs with
    | some r => r
    | none => cs
  stripLitCS "doi.org/".data cs

/-- The capture group `(?<identifier>10\.\d{4}\/.*)` of `doiPattern`:
`10.`, four digits, a slash, then every following character up to (not
including) the first line terminator; the pattern has no end anchor. -/
def readDoiId : List Char → Option String
  | '1' :: '0' :: '.' :: d1 :: d2 :: d3 :: d4 :: '/' :: rest =>
    if d1.isDigit && d2.isDigit && d3.isDigit && d4.isDigit then
      some (String.mk ('1' :: '0' :: '.' :: d1 :: d2 :: d3 :: d4 :: '/' :: rest.takeWhile jsDotChar))
    else none
  | _ => none

/-- Model of `query.match(this.doiPattern)` of src/main.ts, returning the
`identifier` capture on success. -/
def matchDoi (s : String) : Option String :=
  let cs := s.data
  let afterUrl := match stripDoiUrl cs with
    | some r => [r, cs]
    | none => [cs]
  let cands := afterUrl.flatMap (fun c =>
    match stripLitCS "doi:".data c with
    | some r => [r, c]
    | none => [c])
  cands.findSome? readDoiId

/-- The mutable state of `ReferenceModal`: the one-entry memoized query
cache (`lastQuery`, initially `null`, and `lastSuggestions`) and the
`emptyStateText` of the suggest modal. -/
structure ModalState where
  lastQuery : Option String
  lastSuggestions : List Reference
  emptyStateText : String
deriving DecidableEq, Repr

/-- Which of the two endpoints a fetch goes to, deciding which response
handler runs. -/
inductive FetchKind
  | arxiv
  | doi
deriving DecidableEq, Repr

/-- A network request issued by `getSuggestions`: the query it was
issued for, the request URL, and the captured identifier, all held by
the response-handler closure. -/
structure FetchRequest where
  query : String
  url : String
  kind : FetchKind
  identifier : String
deriving DecidableEq, Repr

/-- Method `ReferenceModal.getSuggestions` of src/main.ts: return the cached
suggestions when the query is non-empty and equals the last query
(touching nothing); otherwise set the empty-state text, try the arXiv
pattern and then the DOI pattern, issue the corresponding fetch on a
match (the synchronous return value is the empty list), and with no
match set the empty-state text to `Pattern not recognised` and issue no
fetch. -/
def getSuggestions (st : ModalState) (query : String) :
    List Reference × ModalState × Option FetchRequest :=
  if query ≠ "" ∧ st.lastQuery = some query then
    (st.lastSuggestions, st, none)
  else
    let st1 := { st with emptyStateText := "Fetching results..." }
    match matchArxiv query, matchDoi query with
    | some identifier, _ =>
      ([], st1, some ⟨query, "https://export.arxiv.org/api/query?id_list=" ++ identifier,
        .arxiv, identifier⟩)
    | none, some identifier =>
      ([], st1, some ⟨query, "https://data.crossref.org/" ++ identifier, .doi, identifier⟩)
    | none, none =>
      ([], { st1 with emptyStateText := "Pattern not recognised" }, none)

/-- Method `ReferenceModal.dispatchSuggestions` of src/main.ts: store the
suggestions and the query in the cache, reset the empty-state text, and
dispatch an input event (not modelled: it only triggers a re-query). -/
def dispatchSuggestions (st : ModalState) (query : String) (suggestions : List Reference) :
    ModalState :=
  { lastQuery := some query
    lastSuggestions := suggestions
    emptyStateText := "No results found" }

/-- C2: `getSuggestions` returns the stored suggestions exactly when
the query is non-empty and equal to the last query, mutating nothing in
that case; in every other case it returns the empty list and leaves the
cache fields unchanged; and `dispatchSuggestions` is what updates the
cache fields. -/
theorem c2_memo_cache :
    (∀ (st : ModalState) (query : String),
        (query ≠ "" ∧ st.lastQuery = some query →
          getSuggestions st query = (st.lastSuggestions, st, none)) ∧
        (¬(query ≠ "" ∧ st.lastQuery = some query) →
          (getSuggestions st query).1 = [] ∧
            (getSuggestions st query).2.1.lastQuery = st.lastQuery ∧
            (getSuggestions st query).2.1.lastSuggestions = st.lastSuggestions)) ∧
      (∀ (st : ModalState) (query : String) (sugg : List Reference),
        (dispatchSuggestions st query sugg).lastQuery = some query ∧
          (dispatchSuggestions st query sugg).lastSuggestions = sugg) := by
  refine ⟨fun st query => ⟨fun h => ?_, fun h => ?_⟩, fun st query sugg => ⟨rfl, rfl⟩⟩
  · unfold getSuggestions
    rw [if_pos h]
  · unfold getSuggestions
    rw [if_neg h]
    cases matchArxiv query <;> cases matchDoi query <;> exact ⟨rfl, rfl, rfl⟩

/-- Witness for C2: a repeated non-empty query returns the cached
suggestions unchanged, and a fresh query returns the empty list without
touching the cache. -/
theorem c2_memo_cache_witness :
    getSuggestions ⟨some "q", [⟨[], [("type", FieldValue.str "misc")]⟩], "t"⟩ "q"
        = ([⟨[], [("type", FieldValue.str "misc")]⟩],
            ⟨some "q", [⟨[], [("type", FieldValue.str "misc")]⟩], "t"⟩, none) ∧
      (getSuggestions ⟨some "q", [⟨[], [("type", FieldValue.str "misc")]⟩], "t"⟩ "other").1 = [] :=
  ⟨(c2_memo_cache.1 ⟨some "q", [⟨[], [("type", FieldValue.str "misc")]⟩], "t"⟩ "q").1
      ⟨by decide, rfl⟩,
    ((c2_memo_cache.1 ⟨some "q", [⟨[], [("type", FieldValue.str "misc")]⟩], "t"⟩ "other").2
      (by simp)).1⟩

/-- C3: on a cache miss the classification tries the arXiv pattern and
then the DOI pattern: an arXiv match fetches from export.arxiv.org with
the captured identifier, an arXiv non-match with a DOI match fetches
from data.crossref.org with the captured identifier, and a query
matching neither issues no fetch, sets the empty-state text to
`Pattern not recognised`, and leaves the cache unchanged; every issued
request goes to one of the two fixed endpoints. -/
theorem c3_pattern_classification (st : ModalState) (query : String)
    (hmiss : ¬(query ≠ "" ∧ st.lastQuery = some query)) :
    (∀ id, matchArxiv query = some id →
        (getSuggestions st query).2.2
          = some ⟨query, "https://export.arxiv.org/api/query?id_list=" ++ id, .arxiv, id⟩) ∧
      (matchArxiv query = none → ∀ id, matchDoi query = some id →
        (getSuggestions st query).2.2
          = some ⟨query, "https://data.crossref.org/" ++ id, .doi, id⟩) ∧
      (matchArxiv query = none → matchDoi query = none →
        (getSuggestions st query).2.2 = none ∧
          (getSuggestions st query).2.1.emptyStateText = "Pattern not recognised" ∧
          (getSuggestions st query).2.1.lastQuery = st.lastQuery ∧
          (getSuggestions st query).2.1.lastSuggestions = st.lastSuggestions) ∧
      (∀ req, (getSuggestions st query).2.2 = some req →
        req.url = "https://export.arxiv.org/api/query?id_list=" ++ req.identifier ∨
          req.url = "https://data.crossref.org/" ++ req.identifier) := by
  unfold getSuggestions
  rw [if_neg hmiss]
  refine ⟨?_, ?_, ?_, ?_⟩
  · intro id h
    rw [h]
  · intro h0 id h1
    rw [h0, h1]
  · intro h0 h1
    rw [h0, h1]
    exact ⟨rfl, rfl, rfl, rfl⟩
  · intro req hreq
    cases hma : matchArxiv query with
    | some id1 =>
      rw [hma] at hreq
      have hreq' : some (⟨query, "https://export.arxiv.org/api/query?id_list=" ++ id1,
          FetchKind.arxiv, id1⟩ : FetchRequest) = some req := hreq
      injection hreq' with h
      subst h
      exact Or.inl rfl
    | none =>
      cases hmd : matchDoi query with
      | some id2 =>
        rw [hma, hmd] at hreq
        have hreq' : some (⟨query, "https://data.crossref.org/" ++ id2,
            FetchKind.doi, id2⟩ : FetchRequest) = some req := hreq
        injection hreq' with h
        subst h
        exact Or.inr rfl
      | none =>
        rw [hma, hmd] at hreq
        exact Option.noConfusion hreq

/-- Witness for C3 at concrete queries: an arXiv identifier, a DOI, and
an unrecognised query. -/
theorem c3_pattern_classification_witness :
    (getSuggestions ⟨none, [], ""⟩ "2301.12345").2.2
        = some ⟨"2301.12345", "https://export.arxiv.org/api/query?id_list=" ++ "2301.12345",
            .arxiv, "2301.12345"⟩ ∧
      (getSuggestions ⟨none, [], ""⟩ "doi:10.1000/xyz").2.2
        = some ⟨"doi:10.1000/xyz", "https://data.crossref.org/" ++ "10.1000/xyz",
            .doi, "10.1000/xyz"⟩ ∧
      (getSuggestions ⟨none, [], ""⟩ "hello").2.2 = none ∧
      (getSuggestions ⟨none, [], ""⟩ "hello").2.1.emptyStateText = "Pattern not recognised" :=
  ⟨(c3_pattern_classification ⟨none, [], ""⟩ "2301.12345" (by simp)).1 "2301.12345" (by decide),
    (c3_pattern_classification ⟨none, [], ""⟩ "doi:10.1000/xyz" (by simp)).2.1
      (by decide) "10.1000/xyz" (by decide),
    ((c3_pattern_classification ⟨none, [], ""⟩ "hello" (by simp)).2.2.1
      (by decide) (by decide)).1,
    ((c3_pattern_classification ⟨none, [], ""⟩ "hello" (by simp)).2.2.1
      (by decide) (by decide)).2.1⟩

/-- The payload a pending fetch resolves with: the parsed XML entries of
an arXiv response or the JSON payload of a Crossref response. -/
inductive ResponseData
  | xml (entries : List ArxivEntry)
  | json (payload : CrossrefPayload)
deriving DecidableEq, Repr

/-- The response-handler closure passed to `fetch(...).then`: the arXiv
handler normalises every entry and dispatches, the DOI handler
normalises the payload into a single suggestion and dispatches. -/
def handleResponse (st : ModalState) (req : FetchRequest) (resp : ResponseData) : ModalState :=
  match req.kind, resp with
  | .arxiv, .xml entries =>
    dispatchSuggestions st req.query (entries.map (mkArxivReference req.identifier))
  | .doi, .json p =>
    dispatchSuggestions st req.query [mkDoiReference req.identifier p]
  | _, _ => st

/-- The modal together with the set of issued-but-unresolved fetches,
in issue order. -/
structure SysState where
  modal : ModalState
  pending : List FetchRequest
deriving DecidableEq, Repr

/-- An externally visible event: the host calls `getSuggestions` with a
query, or the `i`-th pending fetch resolves with a response. -/
inductive ModalEvent
  | call (query : String)
  | resolve (i : Nat) (resp : ResponseData)
deriving DecidableEq, Repr

/-- Step of the event system: a call runs `getSuggestions` (appending
the issued fetch, if any, to the pending list — nothing in the code
waits for or cancels earlier fetches), and a resolution runs the
response handler of the chosen pending fetch and removes it. -/
def stepSys (s : SysState) : ModalEvent → SysState
  | .call q =>
    let out := getSuggestions s.modal q
    { modal := out.2.1, pending := s.pending ++ out.2.2.toList }
  | .resolve i resp =>
    match s.pending[i]? with
    | some req => { modal := handleResponse s.modal req resp, pending := s.pending.eraseIdx i }
    | none => s

/-- Run a sequence of events. -/
def runTrace (s : SysState) (es : List ModalEvent) : SysState :=
  es.foldl stepSys s

/-- The initial modal state: `lastQuery` is `null`, `lastSuggestions`
is empty (the initial `emptyStateText` of the host class is modelled as
the empty string; no claim depends on it). -/
def initModalState : ModalState := ⟨none, [], ""⟩

/-- Initial system state: no pending fetch. -/
def initSysState : SysState := ⟨initModalState, []⟩

/-- Counterexample to C8 as stated: after the first recognised query
one fetch is outstanding and unresolved, yet the second recognised
query issues a new fetch, leaving two outstanding at once; and when the
two responses then arrive out of order, the earlier query's stale
response overwrites the later query in the cache. -/
theorem c8_two_outstanding_counterexample :
    (runTrace initSysState [ModalEvent.call "2301.12345"]).pending.length = 1 ∧
      (runTrace initSysState
          [ModalEvent.call "2301.12345", ModalEvent.call "10.1000/x"]).pending.length = 2 ∧
      (runTrace initSysState
          [ModalEvent.call "2301.12345", ModalEvent.call "10.1000/x",
            ModalEvent.resolve 1
              (ResponseData.json ⟨"article-journal", "T", [], 2020, "J", "1", "2", "3", "P", "I"⟩),
            ModalEvent.resolve 0 (ResponseData.xml [])]).modal.lastQuery
        = some "2301.12345" := by
  refine ⟨by decide, by decide, by decide⟩

/-- C8 (amended): `getSuggestions` issues its fetch regardless of the
pending list — a new request is appended even while earlier ones are
unresolved, so responses arriving out of order can overwrite a later
query's suggestions with a stale earlier response. -/
theorem c8_no_outstanding_limit (s : SysState) (q : String) (req : FetchRequest)
    (h : (getSuggestions s.modal q).2.2 = some req) :
    (stepSys s (ModalEvent.call q)).pending = s.pending ++ [req] := by
  show s.pending ++ (getSuggestions s.modal q).2.2.toList = s.pending ++ [req]
  rw [h]
  rfl

/-- Witness for C8 (amended): with one fetch already outstanding, a
second recognised query appends a second outstanding fetch. -/
theorem c8_no_outstanding_limit_witness :
    (stepSys (runTrace initSysState [ModalEvent.call "2301.12345"])
        (ModalEvent.call "10.1000/x")).pending
      = (runTrace initSysState [ModalEvent.call "2301.12345"]).pending ++
          [⟨"10.1000/x", "https://data.crossref.org/10.1000/x", .doi, "10.1000/x"⟩] :=
  c8_no_outstanding_limit (runTrace initSysState [ModalEvent.call "2301.12345"])
    "10.1000/x" ⟨"10.1000/x", "https://data.crossref.org/10.1000/x", .doi, "10.1000/x"⟩
    (by decide)

/-- The vault as the plugin observes it: the paths at which a file
(`TFile`) exists and the paths at which a folder (`TFolder`) exists. -/
structure Vault where
  files : List String
  folders : List String
deriving DecidableEq, Repr

/-- A write the plugin performs through the host vault API. -/
inductive VaultAction
  | createFolder (path : String)
  | create (path : String) (content : String)
deriving DecidableEq, Repr

/-- Method `ReferenceModal.onChooseSuggestion` of src/main.ts, as the list of
vault writes it performs: the item path is `title + '.md'`, prefixed by
the bibliography folder (created first when missing) when that setting
is non-empty; the note is created only when no file exists at the item
path, with content `^^^\n` + `formatReference(reference, true)` +
`\n^^^`.  The local `lines` array built by the loop over the reference
keys (which reads `reference[value]`, not `reference[key]`) is never
read afterwards, so it contributes no write and is not modelled.  When
`formatReference` throws (a `null` author), the content template throws
before `vault.create`, so no note is created. -/
def onChooseSuggestion (folderSetting : String) (vault : Vault) (r : Reference) :
    List VaultAction :=
  let basePath := fvToString (r.getField "title") ++ ".md"
  let folderActs : List VaultAction :=
    if folderSetting ≠ "" then
      if folderSetting ∈ vault.folders then [] else [.createFolder folderSetting]
    else []
  let itemPath : String :=
    if folderSetting ≠ "" then folderSetting ++ "/" ++ basePath else basePath
  let createActs : List VaultAction :=
    if itemPath ∈ vault.files then []
    else
      match formatReference r true with
      | some f => [.create itemPath ("^^^\n" ++ f ++ "\n^^^")]
      | none => []
  folderActs ++ createActs

/-- The note creations among a list of vault writes (path and content). -/
def createsOf (acts : List VaultAction) : List (String × String) :=
  acts.filterMap (fun a =>
    match a with
    | .create p c => some (p, c)
    | _ => none)

/-- C10: choosing a suggestion creates a note exactly when no file
exists at the computed path (`folder + '/' + title + '.md'`, or
`title + '.md'` for an empty folder setting), and the created content
is exactly `^^^\n` + `formatReference(reference, true)` + `\n^^^`; the
dead local `lines` array never influences the created content. -/
theorem c10_note_creation (folderSetting : String) (vault : Vault) (r : Reference) (f : String)
    (h : formatReference r true = some f) :
    createsOf (onChooseSuggestion folderSetting vault r)
      = (if (if folderSetting ≠ "" then
              folderSetting ++ "/" ++ (fvToString (r.getField "title") ++ ".md")
            else fvToString (r.getField "title") ++ ".md") ∈ vault.files then []
          else [((if folderSetting ≠ "" then
                folderSetting ++ "/" ++ (fvToString (r.getField "title") ++ ".md")
              else fvToString (r.getField "title") ++ ".md"),
            "^^^\n" ++ f ++ "\n^^^")]) := by
  simp only [onChooseSuggestion, createsOf, h]
  split_ifs with h1 h2 h3 <;>
    simp [List.filterMap_append, List.filterMap_cons, List.filterMap_nil]

/-- Witness for C10: with an empty vault and folder setting `bib`, the
note `bib/T.md` is created with exactly the fenced serialization. -/
theorem c10_note_creation_witness :
    createsOf (onChooseSuggestion "bib" ⟨[], []⟩
        ⟨[], [("type", FieldValue.str "misc"), ("title", FieldValue.str "T")]⟩)
      = [("bib/T.md",
          "^^^\n@misc\x7bCITEKEY,\n  author = \x7b  \x7d,\n  title = \x7b T \x7d\n\x7d\n^^^")] := by
  have h := c10_note_creation "bib" ⟨[], []⟩
    ⟨[], [("type", FieldValue.str "misc"), ("title", FieldValue.str "T")]⟩
    "@misc\x7bCITEKEY,\n  author = \x7b  \x7d,\n  title = \x7b T \x7d\n\x7d" (by rfl)
  exact h.trans (by decide)
